import Mathlib

/-!
# Verification of the pdf2jpg temporary API-key core

A shallow embedding of the repository's API-key data model and the
operations around it: the `APIKey` record and its derived status
(`internal/auth/api_key.go`), the Firestore-backed repository operations
`Consume`, `Revoke`, `Delete`, `DeleteExpired` and `CountActive`
(`FirestoreRepository`), the decision cache (`decisionCache`), the
`KeyService` orchestration (`ValidateAndConsume`, `Revoke`,
`CleanupExpired`), and the admin HTTP routing and input validation
(`KeyAdminHandler`).

Time instants are embedded as integers (nanoseconds, as in Go's
`time.Time`); `now.After(t)` becomes `t < now`.  The Firestore document
collection is embedded as a list of records, with the document ID equal
to the record's `key` field, exactly as the Go code stores it.
-/

namespace Pdf2Jpg

/-- One second in the embedded time unit (Go `time.Second` nanoseconds). -/
def second : Int := 1000000000

/-! ## Data model (`internal/auth/api_key.go`) -/

/-- The lifecycle status of a key as exposed to operators
(`APIKeyStatus` constants in `api_key.go`). -/
inductive APIKeyStatus
  | active
  | expired
  | exhausted
  | revoked
deriving DecidableEq, Repr

/-- The `APIKey` struct of `api_key.go`: the Firestore document persisted
for temporary keys.  `type` is the `KeyType` string tag ("temporary"). -/
structure APIKey where
  key : String
  type : String
  label : String
  createdAt : Int
  expiresAt : Int
  maxUsage : Int
  remainingUsage : Int
  revokedAt : Option Int
deriving DecidableEq, Repr

/-- `APIKey.IsExpired` from `api_key.go`: `now.After(k.ExpiresAt)`. -/
def APIKey.isExpired (k : APIKey) (now : Int) : Bool :=
  decide (k.expiresAt < now)

/-- `APIKey.Status` from `api_key.go`: revoked, then expired, then
exhausted, else active. -/
def APIKey.status (k : APIKey) (now : Int) : APIKeyStatus :=
  if k.revokedAt.isSome then .revoked
  else if k.expiresAt < now then .expired
  else if k.remainingUsage ≤ 0 then .exhausted
  else .active

/-- The logical key errors of `repository.go`: `ErrKeyNotFound`,
`ErrKeyExpired`, `ErrKeyRevoked`, `ErrKeyExhausted`. -/
inductive KeyError
  | notFound
  | keyExpired
  | keyRevoked
  | keyExhausted
deriving DecidableEq, Repr

/-! ## The Firestore store (`firestore_repository.go`)

The collection is a list of documents; the document ID is the record's
`key` field (`encodeAPIKey` / `decodeAPIDocument` keep every field and
use `doc.Ref.ID` as the key). -/

/-- The collection of persisted temporary-key documents. -/
abbrev Store := List APIKey

/-- Document lookup by ID, as `collectionRef().Doc(key).Get`. -/
def getDoc (s : Store) (key : String) : Option APIKey :=
  s.find? (fun r => r.key == key)

/-- `tx.Set(doc, encodeAPIKey(record))`: overwrite the document whose ID
is `r.key`, creating it when absent. -/
def setDoc (s : Store) (r : APIKey) : Store :=
  if (s.find? (fun x => x.key == r.key)).isSome then
    s.map (fun x => if x.key == r.key then r else x)
  else
    s ++ [r]

/-- `FirestoreRepository.Delete`: remove the document; `NotFound` is not
an error. -/
def storeDelete (s : Store) (key : String) : Store :=
  s.filter (fun r => !(r.key == key))

/-- The persisted wire shape written by `encodeAPIKey`: fields `type`,
`label`, `created_at`, `expires_at`, `max_usage`, `remaining_usage` and
the optional `revoked_at`. -/
structure WireDoc where
  type : String
  label : String
  createdAt : Int
  expiresAt : Int
  maxUsage : Int
  remainingUsage : Int
  revokedAt : Option Int
deriving DecidableEq, Repr

/-- `encodeAPIKey` from `firestore_repository.go`. -/
def encodeAPIKey (r : APIKey) : WireDoc :=
  ⟨r.type, r.label, r.createdAt, r.expiresAt, r.maxUsage, r.remainingUsage, r.revokedAt⟩

/-- `FirestoreRepository.Consume`: the transaction body.  Reads the
document, checks revoked → expired → exhausted in that order, and only
then decrements `remaining_usage` and writes the document back.  On any
error the transaction aborts, so the store is returned unchanged. -/
def repoConsume (s : Store) (key : String) (now : Int) :
    Except KeyError APIKey × Store :=
  match getDoc s key with
  | none => (.error .notFound, s)
  | some record =>
    if record.revokedAt.isSome then (.error .keyRevoked, s)
    else if record.isExpired now then (.error .keyExpired, s)
    else if record.remainingUsage ≤ 0 then (.error .keyExhausted, s)
    else
      let updated := { record with remainingUsage := record.remainingUsage - 1 }
      (.ok updated, setDoc s updated)

/-- `FirestoreRepository.Revoke`: if the record is already revoked it is
returned unchanged without a write; otherwise `remaining_usage` is
zeroed, `revoked_at` is stamped with `now` and the document written
back. -/
def repoRevoke (s : Store) (key : String) (now : Int) :
    Except KeyError APIKey × Store :=
  match getDoc s key with
  | none => (.error .notFound, s)
  | some record =>
    if record.revokedAt.isSome then (.ok record, s)
    else
      let updated := { record with remainingUsage := 0, revokedAt := some now }
      (.ok updated, setDoc s updated)

/-- `FirestoreRepository.DeleteExpired`: query the documents with
`expires_at ≤ now`, up to `limit` of them, delete them in a batch and
return how many were deleted. -/
def deleteExpired (s : Store) (now : Int) (limit : Int) : Nat × Store :=
  let victims := (s.filter (fun r => decide (r.expiresAt ≤ now))).take limit.toNat
  (victims.length, s.filter (fun r => !(victims.any (fun v => v.key == r.key))))

/-- `FirestoreRepository.CountActive`: count the documents matching the
query `remaining_usage > 0 AND expires_at > now`.  (The query has no
clause on `revoked_at`.) -/
def countActive (s : Store) (now : Int) : Nat :=
  (s.filter (fun r => decide (0 < r.remainingUsage) && decide (now < r.expiresAt))).length

/-! ## Validation outcomes (`validation.go`) -/

/-- The closed `validationOutcome` set of `validation.go`. -/
inductive ValidationOutcome
  | authorized
  | unauthorized
  | keyExpired
  | keyRevoked
  | keyExhausted
  | storeError
deriving DecidableEq, Repr

/-- `validationOutcome.httpStatus` from `validation.go`. -/
def ValidationOutcome.httpStatus : ValidationOutcome → Int
  | .unauthorized => 401
  | .keyExpired => 403
  | .keyRevoked => 403
  | .keyExhausted => 429
  | .storeError => 503
  | .authorized => 200

/-! ## Decision cache (`decision_cache.go`)

The Go cache is a map `raw key → cachedDecision`; it is embedded as an
association list whose lookup agrees with the map (`Set` overwrites,
`Delete` removes). -/

/-- `cachedDecision` of `decision_cache.go`: an outcome and its expiry. -/
structure CachedDecision where
  outcome : ValidationOutcome
  expiresAt : Int
deriving DecidableEq, Repr

/-- The decision cache's contents. -/
abbrev Cache := List (String × CachedDecision)

/-- The raw map entry for a key (the `c.data[key]` read). -/
def cacheLookup (c : Cache) (key : String) : Option CachedDecision :=
  (c.find? (fun e => e.1 == key)).map (fun e => e.2)

/-- `decisionCache.Delete`: unconditionally remove the entry. -/
def cacheDelete (c : Cache) (key : String) : Cache :=
  c.filter (fun e => !(e.1 == key))

/-- `decisionCache.Set`: overwrite the entry with expiry `now + ttl`
(Go `now.Add(ttl)`). -/
def cacheSet (c : Cache) (key : String) (o : ValidationOutcome) (ttl now : Int) : Cache :=
  (key, ⟨o, now + ttl⟩) :: cacheDelete c key

/-- `decisionCache.Get`: a missing entry is a miss; an entry with
`now.After(expiresAt)` is evicted and reported as a miss; otherwise the
cached outcome is returned.  The second component is the cache after the
call (Go mutates it in place). -/
def cacheGet (c : Cache) (key : String) (now : Int) :
    Option ValidationOutcome × Cache :=
  match cacheLookup c key with
  | none => (none, c)
  | some entry =>
    if entry.expiresAt < now then (none, cacheDelete c key)
    else (some entry.outcome, c)

/-! ## KeyService (`key_service.go`) -/

/-- `negativeCacheTTL = 30 * time.Second`. -/
def negativeCacheTTL : Int := 30 * second

/-- `errorCacheTTL = 5 * time.Second`. -/
def errorCacheTTL : Int := 5 * second

/-- `defaultCleanupLimit = 200`. -/
def defaultCleanupLimit : Int := 200

/-- What `Repository.Consume` can hand the service: one of the four
logical key errors, or any other (transient) store failure. -/
inductive RepoError
  | known : KeyError → RepoError
  | transient
deriving DecidableEq, Repr

/-- `mapErrorToOutcome` from `key_service.go`: the four sentinel errors
map to their outcomes, everything else to the `error` outcome. -/
def mapErrorToOutcome : RepoError → ValidationOutcome
  | .known .notFound => .unauthorized
  | .known .keyExpired => .keyExpired
  | .known .keyRevoked => .keyRevoked
  | .known .keyExhausted => .keyExhausted
  | .transient => .storeError

/-- What `KeyService.ValidateAndConsume` returns and the state it leaves
behind: the consumed record (on the authorized path), the outcome, and
the cache and store after the call. -/
structure VACResult where
  record : Option APIKey
  outcome : ValidationOutcome
  cache : Cache
  store : Store
deriving Repr

/-- `KeyService.ValidateAndConsume` from `key_service.go`.  The
repository is an interface; its `Consume` result is the `consumeRes`
argument (for the Firestore repository it is `repoConsume`).  The steps
mirror the source: cache lookup first (a hit returns the cached
outcome); on a miss the repository consume runs; on success the cache
entry is deleted; on failure the mapped outcome is cached with
`negativeCacheTTL` (or `errorCacheTTL` for the `error` outcome) and an
expired key is best-effort deleted from the store. -/
def validateAndConsume (store : Store) (cache : Cache) (key : String) (now : Int)
    (consumeRes : Except RepoError (APIKey × Store)) : VACResult :=
  match cacheGet cache key now with
  | (some o, c1) => { record := none, outcome := o, cache := c1, store := store }
  | (none, c1) =>
    match consumeRes with
    | .ok (rec, st2) =>
      { record := some rec, outcome := .authorized, cache := cacheDelete c1 key, store := st2 }
    | .error e =>
      let o := mapErrorToOutcome e
      let ttl := if o = .storeError then errorCacheTTL else negativeCacheTTL
      let c2 := cacheSet c1 key o ttl now
      if e = .known .keyExpired then
        { record := none, outcome := o, cache := c2, store := storeDelete store key }
      else
        { record := none, outcome := o, cache := c2, store := store }

/-- The result of `KeyService.Revoke`: the repository result and the
store and cache after the call. -/
structure RevokeResult where
  res : Except KeyError APIKey
  store : Store
  cache : Cache
deriving Repr

/-- `KeyService.Revoke` from `key_service.go`: delegate to the
repository's `Revoke`; on success, `cache.Set(key, revoked,
negativeCacheTTL, now)`. -/
def serviceRevoke (store : Store) (cache : Cache) (key : String) (now : Int) :
    RevokeResult :=
  match repoRevoke store key now with
  | (.ok record, s1) =>
    ⟨.ok record, s1, cacheSet cache key .keyRevoked negativeCacheTTL now⟩
  | (.error e, s1) => ⟨.error e, s1, cache⟩

/-- The limit `KeyService.CleanupExpired` passes to
`repo.DeleteExpired`: `if limit <= 0 { limit = defaultCleanupLimit }`. -/
def serviceCleanupLimit (limit : Int) : Int :=
  if limit ≤ 0 then defaultCleanupLimit else limit

/-- `KeyService.CleanupExpired` from `key_service.go`: delegate to
`DeleteExpired(now, limit)` after replacing a non-positive limit with
the default. -/
def cleanupExpired (s : Store) (now : Int) (limit : Int) : Nat × Store :=
  deleteExpired s now (serviceCleanupLimit limit)

/-! ## Admin HTTP handler (`admin_keys_handler.go`) -/

/-- The request methods the admin handlers branch on; every method other
than GET and POST takes the same path through the code, so `other`
stands for all of them. -/
inductive Method
  | get
  | post
  | other
deriving DecidableEq, Repr

/-- Where the admin mux and `routeKeyActions` send a request, or the
short-circuit response they write themselves. -/
inductive RouteOutcome
  | issue
  | cleanup
  | keyStatus (key : String)
  | revokeKey (key : String)
  | notFound
  | methodNotAllowed
  | unrouted
deriving DecidableEq, Repr

/-- Character-list version of Go's `strings.HasPrefix` (the test
`ServeMux` applies for the subtree pattern `/admin/api-keys/`). -/
def charsHaveLead : List Char → List Char → Bool
  | [], _ => true
  | _ :: _, [] => false
  | a :: pre, b :: l => a == b && charsHaveLead pre l

/-- Character-list version of Go's `strings.HasSuffix` (the
`/revoke`-suffix test of `routeKeyActions`). -/
def charsHaveTail (suf l : List Char) : Bool :=
  charsHaveLead suf.reverse l.reverse

/-- The admin routing of `Register` plus the method checks at the top of
`issueKey`, `cleanup` and inside `routeKeyActions`.  `ServeMux` sends
the exact path `/admin/api-keys` to `issueKey`, the exact path
`/admin/api-keys/cleanup` to `cleanup` (the longer pattern wins), and
everything else under `/admin/api-keys/` to `routeKeyActions`.
`issueKey` and `cleanup` answer 405 `method not allowed` to a non-POST;
`routeKeyActions` answers 404 `not found` when the path has nothing
after the base (16 characters), and otherwise dispatches GET to
`getKey`, POST with a `/revoke` suffix to `revokeKey` (with the suffix's
7 characters trimmed), and anything else to 404. -/
def dispatch (m : Method) (path : String) : RouteOutcome :=
  if path = "/admin/api-keys" then
    (if m = .post then .issue else .methodNotAllowed)
  else if path = "/admin/api-keys/cleanup" then
    (if m = .post then .cleanup else .methodNotAllowed)
  else if charsHaveLead "/admin/api-keys/".data path.data then
    let rest := path.data.drop 16
    if rest.isEmpty then .notFound
    else if m = .get then .keyStatus (String.mk rest)
    else if m = .post ∧ charsHaveTail "/revoke".data rest then
      .revokeKey (String.mk (rest.take (rest.length - 7)))
    else .notFound
  else .unrouted

/-- The HTTP status the routing layer writes by itself (`some status`),
or `none` when the request reaches a handler body (or another mux
entry). -/
def routeStatus : RouteOutcome → Option Int
  | .notFound => some 404
  | .methodNotAllowed => some 405
  | _ => none

/-- The status `revokeKey` answers with, as a function of the service's
`Revoke` result: 200 on success, 404 for `ErrKeyNotFound`, 500 for any
other error. -/
def revokeHttpStatus : Except KeyError APIKey → Int
  | .ok _ => 200
  | .error .notFound => 404
  | .error _ => 500

/-- `defaultUsageLimit = 10` in `admin_keys_handler.go`. -/
def defaultUsageLimit : Int := 10

/-- `defaultTTLMinutes = 10080` in `admin_keys_handler.go`. -/
def defaultTTLMinutes : Int := 10080

/-- What decoding the issue request body can yield: `empty` when the
body is empty (Go's `json.Decoder.Decode` returns `io.EOF`, which
`issueKey` does not treat as an error), `malformed` for any other decode
failure, or the decoded optional fields. -/
inductive BodyParse
  | empty
  | malformed
  | parsed (label : String) (usageLimit : Option Int) (ttlMinutes : Option Int)
deriving DecidableEq, Repr

/-- How `issueKey` proceeds after decoding and validating the body. -/
inductive IssueReply
  | badJSON
  | badUsage
  | badTTL
  | proceed (label : String) (usage : Int) (ttl : Int)
deriving DecidableEq, Repr

/-- The field defaulting and range checks of `issueKey` after a
successful decode: absent fields default (`usageLimit` 10, `ttlMinutes`
10080), `usageLimit` outside `[1, 1000]` is rejected, then `ttlMinutes`
outside `[15, 10080]` is rejected. -/
def issueChecks (label : String) (u t : Option Int) : IssueReply :=
  let usage := u.getD defaultUsageLimit
  if usage < 1 ∨ 1000 < usage then .badUsage
  else
    let ttl := t.getD defaultTTLMinutes
    if ttl < 15 ∨ 10080 < ttl then .badTTL
    else .proceed label usage ttl

/-- The body handling of `issueKey`: a decode error other than `io.EOF`
is 400 `invalid json body`; an empty body (`io.EOF`) proceeds with the
zero-valued request struct; otherwise the decoded fields are checked and
the handler calls `IssueTemporaryKey` with the resolved values. -/
def issueKeyBody (b : BodyParse) : IssueReply :=
  match b with
  | .malformed => .badJSON
  | .empty => issueChecks "" none none
  | .parsed label u t => issueChecks label u t

/-- The limit the `cleanup` handler passes to
`KeyService.CleanupExpired`: the default 200 when the `limit` query
parameter is missing, unparsable or non-positive, and otherwise the
parsed value clamped down to the default. -/
def handlerCleanupLimit (q : Option Int) : Int :=
  match q with
  | none => defaultCleanupLimit
  | some parsed =>
    if 0 < parsed then
      (if defaultCleanupLimit < parsed then defaultCleanupLimit else parsed)
    else defaultCleanupLimit

deriving instance DecidableEq for Except

/-! ## Helper lemmas about the store and the cache -/

theorem find?_map_update (l : List APIKey) (r : APIKey)
    (h : (l.find? (fun x => x.key == r.key)).isSome = true) :
    (l.map (fun x => if x.key == r.key then r else x)).find?
      (fun x => x.key == r.key) = some r := by
  induction l with
  | nil => simp at h
  | cons a t ih =>
    by_cases hk : (a.key == r.key) = true
    · simp only [List.map_cons, if_pos hk]
      exact List.find?_cons_of_pos _ (by simp)
    · rw [List.find?_cons_of_neg _ (by simpa using hk)] at h
      simp only [List.map_cons, if_neg hk]
      rw [List.find?_cons_of_neg _ (by simpa using hk)]
      exact ih h

theorem getDoc_setDoc_self (s : Store) (r : APIKey)
    (h : (getDoc s r.key).isSome = true) :
    getDoc (setDoc s r) r.key = some r := by
  unfold getDoc at h ⊢
  unfold setDoc
  rw [if_pos h]
  exact find?_map_update s r h

theorem getDoc_key_eq (s : Store) (key : String) (rec : APIKey)
    (h : getDoc s key = some rec) : rec.key = key := by
  have := List.find?_some h
  simpa using this

theorem cacheLookup_set_self (c : Cache) (key : String)
    (o : ValidationOutcome) (ttl now : Int) :
    cacheLookup (cacheSet c key o ttl now) key = some ⟨o, now + ttl⟩ := by
  simp [cacheLookup, cacheSet]

theorem cacheLookup_delete_self (c : Cache) (key : String) :
    cacheLookup (cacheDelete c key) key = none := by
  unfold cacheLookup cacheDelete
  rw [Option.map_eq_none']
  rw [List.find?_eq_none]
  intro e he
  have := (List.mem_filter.mp he).2
  simp at this
  simp [this]

theorem cacheGet_of_lookup_none (c : Cache) (key : String) (now : Int)
    (h : cacheLookup c key = none) : cacheGet c key now = (none, c) := by
  unfold cacheGet
  rw [h]

theorem repoRevoke_of_get_none (s : Store) (key : String) (now : Int)
    (h : getDoc s key = none) : repoRevoke s key now = (.error .notFound, s) := by
  unfold repoRevoke
  rw [h]

theorem repoRevoke_of_revoked (s : Store) (key : String) (now : Int) (rec : APIKey)
    (h1 : getDoc s key = some rec) (h2 : rec.revokedAt.isSome = true) :
    repoRevoke s key now = (.ok rec, s) := by
  unfold repoRevoke
  rw [h1]
  simp [h2]

theorem repoRevoke_of_active (s : Store) (key : String) (now : Int) (rec : APIKey)
    (h1 : getDoc s key = some rec) (h2 : rec.revokedAt.isSome = false) :
    repoRevoke s key now =
      (.ok { rec with remainingUsage := 0, revokedAt := some now },
       setDoc s { rec with remainingUsage := 0, revokedAt := some now }) := by
  unfold repoRevoke
  rw [h1]
  simp [h2]

/-! ## Claim theorems -/

/-- C7: the derived status is a deterministic function of
`(revoked_at, expires_at, remaining_usage, now)` evaluated in the
precedence revoked → expired → exhausted → active: revoked iff
`revoked_at` is set; otherwise expired iff `now` is past `expires_at`;
otherwise exhausted iff `remaining_usage ≤ 0`; otherwise active. -/
theorem status_characterization (k : APIKey) (now : Int) :
    (k.status now = .revoked ↔ k.revokedAt ≠ none) ∧
    (k.status now = .expired ↔ k.revokedAt = none ∧ k.expiresAt < now) ∧
    (k.status now = .exhausted ↔
      k.revokedAt = none ∧ now ≤ k.expiresAt ∧ k.remainingUsage ≤ 0) ∧
    (k.status now = .active ↔
      k.revokedAt = none ∧ now ≤ k.expiresAt ∧ 0 < k.remainingUsage) := by
  unfold APIKey.status
  rcases hk : k.revokedAt with _ | v
  · simp only [hk, Option.isSome_none, Bool.false_eq_true, reduceIte]
    split_ifs <;> simp_all
  · simp only [hk, Option.isSome_some, reduceIte]
    simp

/-- C9: an issue request with an empty body (JSON decoding yields EOF)
is not rejected: it proceeds with the defaults `usageLimit = 10` and
`ttlMinutes = 10080`; only a malformed non-empty body is answered with
400 `invalid json body`. -/
theorem issueKey_empty_body_defaults (b : BodyParse) :
    issueKeyBody .empty = .proceed "" defaultUsageLimit defaultTTLMinutes ∧
    (issueKeyBody b = .badJSON ↔ b = .malformed) := by
  refine ⟨by decide, ?_⟩
  cases b with
  | empty => simp [issueKeyBody, issueChecks, defaultUsageLimit, defaultTTLMinutes]
  | malformed => simp [issueKeyBody]
  | parsed label u t =>
    simp only [issueKeyBody]
    constructor
    · intro h
      simp only [issueChecks] at h
      split_ifs at h
    · intro h
      cases h

/-- C1 counterexample: at the instant `now = expires_at` the claim's
guard `expires_at > now` is false, yet `Consume` performs the decrement
(`IsExpired` is the strict `now.After(expires_at)`): the record
`⟨"k", expires_at = 100, remaining_usage = 1⟩` is consumed at
`now = 100`. -/
theorem consume_at_expiry_counterexample :
    (repoConsume [⟨"k", "temporary", "trial", 0, 100, 1, 1, none⟩] "k" 100).1 =
      .ok ⟨"k", "temporary", "trial", 0, 100, 1, 0, none⟩ ∧
    ¬ ((100 : Int) > 100) := by
  decide

/-- C1 amended: for a stored record, `Consume(key, now)` decrements
`remaining_usage` by one and writes the record back iff at read time
`revoked_at == nil ∧ now ≤ expires_at ∧ remaining_usage > 0` (the
expiry check is the strict `now.After(expires_at)`, so the store still
consumes at `now = expires_at`); the checks apply in the precedence
revoked → expired → exhausted, and on any failing check the
corresponding error is returned with the store unchanged. -/
theorem consume_transition (s : Store) (key : String) (now : Int) (rec : APIKey)
    (h : getDoc s key = some rec) :
    (rec.revokedAt = none → now ≤ rec.expiresAt → 0 < rec.remainingUsage →
      repoConsume s key now =
        (.ok { rec with remainingUsage := rec.remainingUsage - 1 },
         setDoc s { rec with remainingUsage := rec.remainingUsage - 1 })) ∧
    (rec.revokedAt ≠ none → repoConsume s key now = (.error .keyRevoked, s)) ∧
    (rec.revokedAt = none → rec.expiresAt < now →
      repoConsume s key now = (.error .keyExpired, s)) ∧
    (rec.revokedAt = none → now ≤ rec.expiresAt → rec.remainingUsage ≤ 0 →
      repoConsume s key now = (.error .keyExhausted, s)) := by
  refine ⟨fun h1 h2 h3 => ?_, fun h1 => ?_, fun h1 h2 => ?_, fun h1 h2 h3 => ?_⟩ <;>
    simp only [repoConsume, h]
  · rw [if_neg (by simp [h1]), if_neg (by simp [APIKey.isExpired]; omega),
      if_neg (by omega)]
  · rw [if_pos (by simp [Option.isSome_iff_ne_none, h1])]
  · rw [if_neg (by simp [h1]), if_pos (by simp [APIKey.isExpired, h2])]
  · rw [if_neg (by simp [h1]), if_neg (by simp [APIKey.isExpired]; omega),
      if_pos h3]

/-- C1 witness: the transition at a concrete active record. -/
theorem consume_transition_witness :
    repoConsume [⟨"k", "temporary", "trial", 0, 100, 2, 2, none⟩] "k" 50 =
      (.ok ⟨"k", "temporary", "trial", 0, 100, 2, 1, none⟩,
       [⟨"k", "temporary", "trial", 0, 100, 2, 1, none⟩]) := by
  have h := (consume_transition [⟨"k", "temporary", "trial", 0, 100, 2, 2, none⟩]
      "k" 50 ⟨"k", "temporary", "trial", 0, 100, 2, 2, none⟩ (by decide)).1
      (by decide) (by decide) (by decide)
  simpa using h

/-- C2: `ValidateAndConsume` never caches an authorized outcome.  When
the cache misses, a successful consume leaves no cache entry for the key
(so a later call misses again and reaches the repository's `Consume`),
and a failed consume caches the mapped outcome — which is never
`authorized` — with expiry `now + 30 s`, or `now + 5 s` for the `error`
outcome. -/
theorem validateAndConsume_cache_policy
    (store : Store) (cache : Cache) (key : String) (now : Int)
    (res : Except RepoError (APIKey × Store))
    (hmiss : (cacheGet cache key now).1 = none) :
    cacheLookup (validateAndConsume store cache key now res).cache key =
      (match res with
       | .ok _ => none
       | .error e => some ⟨mapErrorToOutcome e,
           now + (if mapErrorToOutcome e = .storeError
                  then errorCacheTTL else negativeCacheTTL)⟩) ∧
    (∀ rec st2, res = .ok (rec, st2) →
      ∀ later, cacheGet (validateAndConsume store cache key now res).cache key later =
        (none, (validateAndConsume store cache key now res).cache)) ∧
    (∀ e, res = .error e → mapErrorToOutcome e ≠ .authorized) := by
  have hget : cacheGet cache key now = (none, (cacheGet cache key now).2) := by
    rw [← hmiss]
  cases res with
  | ok p =>
    obtain ⟨rec, st2⟩ := p
    have hstep : validateAndConsume store cache key now (.ok (rec, st2)) =
        { record := some rec, outcome := .authorized,
          cache := cacheDelete (cacheGet cache key now).2 key, store := st2 } := by
      unfold validateAndConsume
      rw [hget]
    rw [hstep]
    refine ⟨cacheLookup_delete_self _ _, ?_, ?_⟩
    · intro rec' st2' _ later
      exact cacheGet_of_lookup_none _ _ _ (cacheLookup_delete_self _ _)
    · intro e he
      cases he
  | error e =>
    have hstep : validateAndConsume store cache key now (.error e) =
        (if e = RepoError.known KeyError.keyExpired then
          { record := none, outcome := mapErrorToOutcome e,
            cache := cacheSet (cacheGet cache key now).2 key (mapErrorToOutcome e)
              (if mapErrorToOutcome e = .storeError
               then errorCacheTTL else negativeCacheTTL) now,
            store := storeDelete store key }
         else
          { record := none, outcome := mapErrorToOutcome e,
            cache := cacheSet (cacheGet cache key now).2 key (mapErrorToOutcome e)
              (if mapErrorToOutcome e = .storeError
               then errorCacheTTL else negativeCacheTTL) now,
            store := store }) := by
      unfold validateAndConsume
      rw [hget]
    rw [hstep]
    have hmap : ∀ e' : RepoError, mapErrorToOutcome e' ≠ .authorized := by
      intro e'
      rcases e' with k | _
      · cases k <;> decide
      · decide
    refine ⟨?_, ?_, ?_⟩
    · by_cases he : e = RepoError.known KeyError.keyExpired
      · rw [if_pos he]
        exact cacheLookup_set_self _ _ _ _ _
      · rw [if_neg he]
        exact cacheLookup_set_self _ _ _ _ _
    · intro rec' st2' h
      cases h
    · intro e' he'
      exact hmap e'

/-- C2 witness: a concrete miss followed by a `not found` consume
failure caches `unauthorized` with the 30 s TTL. -/
theorem validateAndConsume_cache_policy_witness :
    cacheLookup (validateAndConsume [] [] "k" 0
        (Except.error (RepoError.known KeyError.notFound))).cache "k" =
      some ⟨ValidationOutcome.unauthorized, negativeCacheTTL⟩ := by
  have h := (validateAndConsume_cache_policy [] [] "k" 0
      (Except.error (RepoError.known KeyError.notFound)) (by decide)).1
  simpa using h

/-- C3 counterexample: after a successful `KeyService.Revoke` the
decision cache does hold an entry for the key (the service sets the
`revoked` outcome instead of evicting). -/
theorem revoke_cache_counterexample :
    (serviceRevoke [⟨"k", "temporary", "trial", 0, 100, 5, 5, none⟩] [] "k" 10).res =
      .ok ⟨"k", "temporary", "trial", 0, 100, 5, 0, some 10⟩ ∧
    cacheLookup
      (serviceRevoke [⟨"k", "temporary", "trial", 0, 100, 5, 5, none⟩] [] "k" 10).cache
      "k" ≠ none := by
  decide

/-- C3 amended: after any successful consume inside `ValidateAndConsume`
the service evicts the decision-cache entry for the key; after
`KeyService.Revoke` succeeds the service does not evict: it sets the
entry to the `revoked` outcome with the 30 s negative TTL, so at that
point the cache holds a `revoked` entry for the key. -/
theorem revoke_and_consume_cache_effects
    (store : Store) (cache : Cache) (key : String) (now : Int) :
    (∀ record, (serviceRevoke store cache key now).res = .ok record →
      cacheLookup (serviceRevoke store cache key now).cache key =
        some ⟨.keyRevoked, now + negativeCacheTTL⟩) ∧
    (∀ (rec : APIKey) (st2 : Store),
      (cacheGet cache key now).1 = none →
      cacheLookup (validateAndConsume store cache key now (.ok (rec, st2))).cache key =
        none) := by
  constructor
  · intro record hok
    unfold serviceRevoke at hok ⊢
    rcases hr : repoRevoke store key now with ⟨r, s1⟩
    rw [hr] at hok
    rcases r with e | found
    · cases hok
    · exact cacheLookup_set_self _ _ _ _ _
  · intro rec st2 hmiss
    have hget : cacheGet cache key now = (none, (cacheGet cache key now).2) := by
      rw [← hmiss]
    have hstep : validateAndConsume store cache key now (.ok (rec, st2)) =
        { record := some rec, outcome := .authorized,
          cache := cacheDelete (cacheGet cache key now).2 key, store := st2 } := by
      unfold validateAndConsume
      rw [hget]
    rw [hstep]
    exact cacheLookup_delete_self _ _

set_option maxRecDepth 8000 in
/-- C4 counterexample: `CleanupExpired(500)` passes 500 — not
`min(500, 200) = 200` — to `DeleteExpired`: on a store of 201 expired
records it deletes 201, while a limit of `min(500, 200)` would delete
200. -/
theorem cleanup_limit_counterexample :
    serviceCleanupLimit 500 = 500 ∧
    min (500 : Int) defaultCleanupLimit = 200 ∧
    (cleanupExpired
      (List.replicate 201 ⟨"e", "temporary", "t", 0, -1, 1, 1, none⟩) 0 500).1 = 201 ∧
    (deleteExpired
      (List.replicate 201 ⟨"e", "temporary", "t", 0, -1, 1, 1, none⟩) 0
      (min (500 : Int) defaultCleanupLimit)).1 = 200 := by
  decide

/-- C4 amended: `KeyService.CleanupExpired(limit)` delegates to
`DeleteExpired(now, effective_limit)` where a `limit ≤ 0` becomes the
default 200 and a positive `limit` is passed through unchanged (no
`min` with 200 in the service); the clamp to at most 200 is applied by
the HTTP cleanup handler, whose limit always lies in `[1, 200]`, so
that through HTTP a positive parsed limit becomes `min(parsed, 200)`. -/
theorem cleanupExpired_limit (s : Store) (now limit : Int) (q : Option Int) (n : Int) :
    cleanupExpired s now limit =
      deleteExpired s now (if limit ≤ 0 then defaultCleanupLimit else limit) ∧
    (0 < limit → serviceCleanupLimit limit = limit) ∧
    (limit ≤ 0 → serviceCleanupLimit limit = defaultCleanupLimit) ∧
    (0 < n → serviceCleanupLimit (handlerCleanupLimit (some n)) =
      min n defaultCleanupLimit) ∧
    1 ≤ handlerCleanupLimit q ∧ handlerCleanupLimit q ≤ defaultCleanupLimit := by
  refine ⟨rfl, fun h => ?_, fun h => ?_, fun h => ?_, ?_⟩
  · simp only [serviceCleanupLimit]
    rw [if_neg (by omega)]
  · simp only [serviceCleanupLimit]
    rw [if_pos h]
  · simp only [serviceCleanupLimit, handlerCleanupLimit, defaultCleanupLimit]
    split_ifs <;> omega
  · rcases q with _ | parsed
    · simp only [handlerCleanupLimit, defaultCleanupLimit]
      omega
    · simp only [handlerCleanupLimit, defaultCleanupLimit]
      split_ifs <;> omega

/-- C5 counterexample: `GET /admin/api-keys` (a method/path combination
that is none of the four supported operations) is answered with 405
`method not allowed`, not 404. -/
theorem admin_routing_counterexample :
    routeStatus (dispatch .get "/admin/api-keys") = some 405 ∧
    (405 : Int) ≠ 404 := by
  decide

/-- C5 amended: a request under `/admin/api-keys/{key}` whose
method/path combination is not a supported operation is answered 404
`not found`; but a request to the exact paths `/admin/api-keys` or
`/admin/api-keys/cleanup` with a method other than POST is answered 405
`method not allowed` — the routing layer answers 405 exactly there. -/
theorem admin_routing_statuses (m : Method) (p : String) :
    (routeStatus (dispatch m p) = some 405 ↔
      m ≠ .post ∧ (p = "/admin/api-keys" ∨ p = "/admin/api-keys/cleanup")) ∧
    (routeStatus (dispatch m p) = some 404 ↔ dispatch m p = .notFound) := by
  unfold dispatch
  split_ifs <;> simp_all [routeStatus] <;> split_ifs <;> simp_all

/-- C6: `Repository.Revoke` is idempotent: once a `Revoke` has
succeeded with record `r` and store `s1`, revoking the same key again
(at any later time) returns the same record `r` — so the earlier
`revoked_at` timestamp is kept — and leaves the store at `s1`; the HTTP
revoke endpoint maps both results to status 200. -/
theorem revoke_idempotent (s : Store) (key : String) (now later : Int)
    (r : APIKey) (s1 : Store)
    (h : repoRevoke s key now = (.ok r, s1)) :
    repoRevoke s1 key later = (.ok r, s1) ∧
    r.revokedAt.isSome = true ∧
    revokeHttpStatus (repoRevoke s key now).1 = 200 ∧
    revokeHttpStatus (repoRevoke s1 key later).1 = 200 := by
  rcases hg : getDoc s key with _ | record
  · rw [repoRevoke_of_get_none s key now hg] at h
    exact absurd (congrArg Prod.fst h) (by simp)
  · by_cases hrv : record.revokedAt.isSome = true
    · rw [repoRevoke_of_revoked s key now record hg hrv] at h
      rw [Prod.mk.injEq] at h
      obtain ⟨h1, h2⟩ := h
      injection h1 with h1
      subst h1
      subst h2
      refine ⟨repoRevoke_of_revoked s key later record hg hrv, hrv, ?_, ?_⟩
      · rw [repoRevoke_of_revoked s key now record hg hrv]
        rfl
      · rw [repoRevoke_of_revoked s key later record hg hrv]
        rfl
    · have hrv' : record.revokedAt.isSome = false := by simpa using hrv
      rw [repoRevoke_of_active s key now record hg hrv'] at h
      rw [Prod.mk.injEq] at h
      obtain ⟨h1, h2⟩ := h
      injection h1 with h1
      subst h1
      subst h2
      have hkey : record.key = key := getDoc_key_eq s key record hg
      subst hkey
      have hsome :
          (getDoc s
            (APIKey.key { record with remainingUsage := 0, revokedAt := some now })).isSome =
            true := by
        show (getDoc s record.key).isSome = true
        rw [hg]
        rfl
      have hsd := getDoc_setDoc_self s
        { record with remainingUsage := 0, revokedAt := some now } hsome
      refine ⟨repoRevoke_of_revoked _ record.key later _ hsd rfl, rfl, ?_, ?_⟩
      · rw [repoRevoke_of_active s record.key now record hg hrv']
        rfl
      · rw [repoRevoke_of_revoked _ record.key later _ hsd rfl]
        rfl

/-- C6 witness: a concrete revoke followed by a second revoke of the
same key returns the identical record and store, both mapped to
status 200. -/
theorem revoke_idempotent_witness :
    repoRevoke [⟨"k", "temporary", "t", 0, 100, 5, 0, some 5⟩] "k" 9 =
      (.ok ⟨"k", "temporary", "t", 0, 100, 5, 0, some 5⟩,
       [⟨"k", "temporary", "t", 0, 100, 5, 0, some 5⟩]) ∧
    (⟨"k", "temporary", "t", 0, 100, 5, 0, some 5⟩ : APIKey).revokedAt.isSome = true ∧
    revokeHttpStatus
      (repoRevoke [⟨"k", "temporary", "t", 0, 100, 5, 5, none⟩] "k" 5).1 = 200 ∧
    revokeHttpStatus
      (repoRevoke [⟨"k", "temporary", "t", 0, 100, 5, 0, some 5⟩] "k" 9).1 = 200 :=
  revoke_idempotent [⟨"k", "temporary", "t", 0, 100, 5, 5, none⟩] "k" 5 9
    ⟨"k", "temporary", "t", 0, 100, 5, 0, some 5⟩
    [⟨"k", "temporary", "t", 0, 100, 5, 0, some 5⟩] (by decide)

/-- C8: on a store satisfying the record invariant that every revoked
record has `remaining_usage = 0`, `CountActive(now)` — whose Firestore
query filters only on `remaining_usage > 0` and `expires_at > now` —
returns exactly the number of records with
`revoked_at == nil ∧ expires_at > now ∧ remaining_usage > 0`. -/
theorem countActive_spec (s : Store) (now : Int)
    (hinv : ∀ r ∈ s, r.revokedAt ≠ none → r.remainingUsage = 0) :
    countActive s now =
      (s.filter (fun r => decide (r.revokedAt = none) && decide (now < r.expiresAt) &&
        decide (0 < r.remainingUsage))).length := by
  unfold countActive
  rw [List.filter_congr]
  intro r hr
  by_cases hrv : r.revokedAt = none
  · simp [hrv, Bool.and_comm]
  · have h0 : r.remainingUsage = 0 := hinv r hr hrv
    simp [hrv, h0]

/-- C8 witness: a store holding one active, one revoked (with zeroed
usage) and one expired record counts exactly one active record. -/
theorem countActive_spec_witness :
    countActive
      [⟨"a", "temporary", "t", 0, 100, 5, 3, none⟩,
       ⟨"b", "temporary", "t", 0, 100, 5, 0, some 7⟩,
       ⟨"c", "temporary", "t", 0, 20, 5, 3, none⟩] 50 =
      (([⟨"a", "temporary", "t", 0, 100, 5, 3, none⟩,
         ⟨"b", "temporary", "t", 0, 100, 5, 0, some 7⟩,
         ⟨"c", "temporary", "t", 0, 20, 5, 3, none⟩] : Store).filter
        (fun r => decide (r.revokedAt = none) && decide ((50 : Int) < r.expiresAt) &&
          decide (0 < r.remainingUsage))).length :=
  countActive_spec
    [⟨"a", "temporary", "t", 0, 100, 5, 3, none⟩,
     ⟨"b", "temporary", "t", 0, 100, 5, 0, some 7⟩,
     ⟨"c", "temporary", "t", 0, 20, 5, 3, none⟩] 50 (by decide)

/-- C10: revoking a not-yet-revoked stored record changes only
`remaining_usage` (to 0) and `revoked_at` (to `now`): the returned
record is exactly the stored one with those two fields replaced, the
stored document equals the returned record, and the persisted wire
shape (`encodeAPIKey`) keeps `type`, `label`, `created_at`,
`expires_at` and `max_usage` unchanged. -/
theorem revoke_frame (s : Store) (key : String) (now : Int) (rec : APIKey)
    (hget : getDoc s key = some rec) (hnr : rec.revokedAt = none) :
    repoRevoke s key now =
      (.ok { rec with remainingUsage := 0, revokedAt := some now },
       setDoc s { rec with remainingUsage := 0, revokedAt := some now }) ∧
    getDoc (repoRevoke s key now).2 key =
      some { rec with remainingUsage := 0, revokedAt := some now } ∧
    APIKey.key { rec with remainingUsage := 0, revokedAt := some now } = rec.key ∧
    APIKey.type { rec with remainingUsage := 0, revokedAt := some now } = rec.type ∧
    APIKey.label { rec with remainingUsage := 0, revokedAt := some now } = rec.label ∧
    APIKey.createdAt { rec with remainingUsage := 0, revokedAt := some now } = rec.createdAt ∧
    APIKey.expiresAt { rec with remainingUsage := 0, revokedAt := some now } = rec.expiresAt ∧
    APIKey.maxUsage { rec with remainingUsage := 0, revokedAt := some now } = rec.maxUsage ∧
    encodeAPIKey { rec with remainingUsage := 0, revokedAt := some now } =
      { encodeAPIKey rec with remainingUsage := 0, revokedAt := some now } := by
  have hrv : rec.revokedAt.isSome = false := by simp [hnr]
  have h1 := repoRevoke_of_active s key now rec hget hrv
  have hkey : rec.key = key := getDoc_key_eq s key rec hget
  subst hkey
  have hsome :
      (getDoc s
        (APIKey.key { rec with remainingUsage := 0, revokedAt := some now })).isSome =
        true := by
    show (getDoc s rec.key).isSome = true
    rw [hget]
    rfl
  have hsd := getDoc_setDoc_self s
    { rec with remainingUsage := 0, revokedAt := some now } hsome
  refine ⟨h1, ?_, rfl, rfl, rfl, rfl, rfl, rfl, rfl⟩
  rw [h1]
  exact hsd

/-- C10 witness: revoking a concrete active record at `now = 7` zeroes
`remaining_usage`, stamps `revoked_at = 7` and leaves every other field
of the returned record, the stored document and the wire shape
unchanged. -/
theorem revoke_frame_witness :
    repoRevoke [⟨"k", "temporary", "t", 1, 100, 5, 4, none⟩] "k" 7 =
      (.ok ⟨"k", "temporary", "t", 1, 100, 5, 0, some 7⟩,
       [⟨"k", "temporary", "t", 1, 100, 5, 0, some 7⟩]) ∧
    getDoc (repoRevoke [⟨"k", "temporary", "t", 1, 100, 5, 4, none⟩] "k" 7).2 "k" =
      some ⟨"k", "temporary", "t", 1, 100, 5, 0, some 7⟩ ∧
    encodeAPIKey ⟨"k", "temporary", "t", 1, 100, 5, 0, some 7⟩ =
      ⟨"temporary", "t", 1, 100, 5, 0, some 7⟩ := by
  have h := revoke_frame [⟨"k", "temporary", "t", 1, 100, 5, 4, none⟩] "k" 7
    ⟨"k", "temporary", "t", 1, 100, 5, 4, none⟩ (by decide) (by decide)
  exact ⟨h.1, h.2.1, h.2.2.2.2.2.2.2.2⟩

end Pdf2Jpg
